import Mathlib

/-!
# Verification of the SteamStore-ANALYSE adaptive scraping engine

Shallow embedding of the core of the repository:

* `PerformanceGovernor` (src/SCRAPPING/SteamScraper.py, class `PerformanceGovernor`):
  the 3-state feedback controller adjusting concurrency and delay.
  Python floats are embedded as rationals (`ℚ`); the bounded `deque` history is a
  list with explicit eviction.
* the per-attempt outcome classification of `SteamScraper.process_game_details`;
* the ledger scan `SteamScraper.get_already_processed_ids` together with Python's
  `int(json.loads(line)['app_id'])` semantics, including which exceptions the
  surrounding handler catches;
* the chunk computation of `SteamScraper.run`;
* the batch bookkeeping of `SteamDataProcessor.flush_batches_if_needed` /
  `finalize_processing` (src/SteamDataExtract.py), with ledger files modelled as
  `Option (List _)` so that "the file does not exist yet" is observable;
* the startup guard of `SteamScraper.run` with `discover_all_app_ids_from_json`
  and `SteamDataProcessor._load_schema`.
-/

/-- `RequestOutcome` of src/SCRAPPING/SteamScraper.py (SUCCESS / RATE_LIMIT / FAILURE). -/
inductive RequestOutcome where
  | success
  | rateLimit
  | failure
  deriving DecidableEq

/-- `GovernorState` of src/SCRAPPING/SteamScraper.py. -/
inductive GovernorState where
  | optimizing
  | throttled
  | recovering
  deriving DecidableEq

/-- The governor-relevant fields of the parsed command-line arguments.
`min_concurrency`/`max_concurrency` are ints and the delays floats in the source;
all four take part in rational arithmetic here.  The source performs no range
validation on them beyond argparse's type conversion. -/
structure GovArgs where
  min_concurrency : ℚ
  max_concurrency : ℚ
  min_delay : ℚ
  max_delay : ℚ
  history_size : ℕ
  throttle_threshold_pct : ℚ
  deriving DecidableEq

/-- State of `PerformanceGovernor`: `self.state`, `self.history`
(a `deque(maxlen=args.history_size)`, newest element last), and the
current speed operating point. -/
structure PerformanceGovernor where
  args : GovArgs
  state : GovernorState
  history : List RequestOutcome
  current_concurrency : ℚ
  current_delay : ℚ
  deriving DecidableEq

/-- `PerformanceGovernor.__init__`: starts `OPTIMIZING`, empty history,
concurrency at its minimum and delay at the middle of its range. -/
def PerformanceGovernor.init (args : GovArgs) : PerformanceGovernor where
  args := args
  state := .optimizing
  history := []
  current_concurrency := args.min_concurrency
  current_delay := (args.min_delay + args.max_delay) / 2

/-- `deque(maxlen=n).append`: append on the right, evicting from the left
whenever the capacity would be exceeded. -/
def appendBounded (maxlen : ℕ) (h : List RequestOutcome) (x : RequestOutcome) :
    List RequestOutcome :=
  let h2 := h ++ [x]
  h2.drop (h2.length - maxlen)

/-- `PerformanceGovernor.record_outcome`. -/
def PerformanceGovernor.record_outcome (g : PerformanceGovernor) (o : RequestOutcome) :
    PerformanceGovernor :=
  { g with history := appendBounded g.args.history_size g.history o }

/-- The `rate_limit_pct` quantity of `assess_and_adjust`:
`history.count(RATE_LIMIT) / len(history)`. -/
def rlFraction (g : PerformanceGovernor) : ℚ :=
  (g.history.count RequestOutcome.rateLimit : ℚ) / (g.history.length : ℚ)

/-- The state-transition block of `assess_and_adjust` (the `if`/`elif` chain
on `self.state` and `rate_limit_pct`). -/
def transitionState (g : PerformanceGovernor) (pct : ℚ) : GovernorState :=
  if g.state = .optimizing ∧ g.args.throttle_threshold_pct / 100 < pct then .throttled
  else if g.state = .throttled ∧ pct < g.args.throttle_threshold_pct / 100 then .optimizing
  else g.state

/-- `PerformanceGovernor.assess_and_adjust`, line for line:
early return while fewer than `history_size / 2` outcomes are recorded;
then the state-transition block, then the speed adjustment block switching on
the state *after* the transition.  In the `OPTIMIZING` arm the new delay is
computed first and the concurrency bump applies only when that new delay sits
at `min_delay`, exactly as in the source. -/
def PerformanceGovernor.assess_and_adjust (g : PerformanceGovernor) : PerformanceGovernor :=
  if 2 * g.history.length < g.args.history_size then g
  else
    match transitionState g (rlFraction g) with
    | .optimizing =>
        { g with
            state := .optimizing
            current_delay := max g.args.min_delay (g.current_delay * (19/20))
            current_concurrency :=
              if max g.args.min_delay (g.current_delay * (19/20)) = g.args.min_delay then
                min g.args.max_concurrency (g.current_concurrency + 1/2)
              else g.current_concurrency }
    | .throttled =>
        { g with
            state := .throttled
            current_concurrency := max g.args.min_concurrency (g.current_concurrency * (9/10))
            current_delay := min g.args.max_delay (g.current_delay * (11/10)) }
    | .recovering =>
        if rlFraction g = 0 then { g with state := .optimizing } else g

/-- `PerformanceGovernor.reset_after_ban`. -/
def PerformanceGovernor.reset_after_ban (g : PerformanceGovernor) : PerformanceGovernor :=
  { g with
      state := .recovering
      current_concurrency := g.args.min_concurrency
      current_delay := g.args.max_delay
      history := [] }

/-- `PerformanceGovernor.get_delay`: `current_delay * random.uniform(0.8, 1.2)`,
with the random factor made an explicit argument `r`. -/
def PerformanceGovernor.get_delay (g : PerformanceGovernor) (r : ℚ) : ℚ :=
  g.current_delay * r

/-- The mutating governor calls available to the scraper. -/
inductive GovOp where
  | record (o : RequestOutcome)
  | assess
  | reset
  deriving DecidableEq

/-- Apply one governor call. -/
def applyOp (g : PerformanceGovernor) : GovOp → PerformanceGovernor
  | .record o => g.record_outcome o
  | .assess => g.assess_and_adjust
  | .reset => g.reset_after_ban

/-- Apply a sequence of governor calls, oldest first. -/
def runOps (g : PerformanceGovernor) (ops : List GovOp) : PerformanceGovernor :=
  ops.foldl applyOp g

/-- Concurrency and delay lie within their configured bounds. -/
def InBounds (g : PerformanceGovernor) : Prop :=
  g.args.min_concurrency ≤ g.current_concurrency ∧
  g.current_concurrency ≤ g.args.max_concurrency ∧
  g.args.min_delay ≤ g.current_delay ∧
  g.current_delay ≤ g.args.max_delay

instance (g : PerformanceGovernor) : Decidable (InBounds g) := by
  unfold InBounds; infer_instance

/-! ## Outcome classification of one fetch attempt

`SteamScraper.process_game_details` gathers the three responses (details,
reviews, store page); a network-level exception from any `session.get`
propagates out of `asyncio.gather` and is reduced to `FAILURE`.  Otherwise the
responses are scanned in order: status 429 returns `RATE_LIMIT`, status 403
raises `IPBannedException`, `raise_for_status()` turns any other status ≥ 400
into `FAILURE`.  Then the two JSON payloads are parsed (a malformed one gives
`FAILURE`), the block-page marker `"g-recaptcha"` in the store page raises
`IPBannedException`, and any exception from the downstream
extract/validate/flush steps gives `FAILURE`.  The four-way classification of
the spec identifies `HardBlocked` with the raised `IPBannedException`. -/

/-- One HTTP response as the classifier sees it: either the `session.get`
raised (timeout, connection error), or a response with a status code, a flag
telling whether its JSON body parses (meaningful for the details and reviews
endpoints), and a flag telling whether the body contains the block-page marker
(meaningful for the store page). -/
inductive FetchResp where
  | netErr
  | ok (status : ℕ) (jsonWellFormed : Bool) (blockMarker : Bool)
  deriving DecidableEq

/-- Per-response step of the status loop in `process_game_details`:
`429` first, then `403`, then `raise_for_status()` (status ≥ 400). -/
inductive StatusStep where
  | rl
  | ban
  | err
  | pass
  deriving DecidableEq

/-- The status checks of the loop `for resp in results`, in source order. -/
def statusStep (st : ℕ) : StatusStep :=
  if st = 429 then .rl
  else if st = 403 then .ban
  else if 400 ≤ st then .err
  else .pass

/-- Four-way classification of one attempt (spec §2 `OutcomeClassifier`).
`HardBlocked` stands for `IPBannedException` being raised. -/
inductive AttemptClass where
  | success
  | rateLimited
  | hardBlocked
  | transientFailure
  deriving DecidableEq

/-- `process_game_details` for one identifier, as a function of the three
responses `d` (details), `r` (reviews), `s` (store page) and of `pOk`,
which records whether the downstream extract/validate/flush steps run
without raising. -/
def classifyAttempt (d r s : FetchResp) (pOk : Bool) : AttemptClass :=
  match d, r, s with
  | .ok sd bd _, .ok sr br _, .ok ss _ ms =>
      match statusStep sd with
      | .rl => .rateLimited
      | .ban => .hardBlocked
      | .err => .transientFailure
      | .pass =>
          match statusStep sr with
          | .rl => .rateLimited
          | .ban => .hardBlocked
          | .err => .transientFailure
          | .pass =>
              match statusStep ss with
              | .rl => .rateLimited
              | .ban => .hardBlocked
              | .err => .transientFailure
              | .pass =>
                  if bd && br then
                    if ms then .hardBlocked
                    else if pOk then .success else .transientFailure
                  else .transientFailure
  | _, _, _ => .transientFailure

/-- All three `session.get` calls returned a response. -/
def allFetched (d r s : FetchResp) : Prop :=
  d ≠ .netErr ∧ r ≠ .netErr ∧ s ≠ .netErr

/-- The response passed the status loop: not 429, not 403, below 400. -/
def respPasses : FetchResp → Prop
  | .netErr => False
  | .ok st _ _ => st ≠ 429 ∧ st ≠ 403 ∧ st < 400

/-- The response carries the given status code. -/
def respHasStatus : FetchResp → ℕ → Prop
  | .netErr, _ => False
  | .ok st _ _, n => st = n

/-- The response body parses as JSON. -/
def respJsonOk : FetchResp → Prop
  | .netErr => False
  | .ok _ b _ => b = true

/-- The response body contains the block-page marker (`"g-recaptcha"`). -/
def respMarker : FetchResp → Prop
  | .netErr => False
  | .ok _ _ m => m = true

/-! ## Ledger scan: `SteamScraper.get_already_processed_ids`

Each ledger line is fed to `int(json.loads(line)['app_id'])` under a handler
catching `(json.JSONDecodeError, KeyError, ValueError, TypeError)`.  A line is
modelled after `json.loads`: either it fails to parse, parses to a non-object
(indexing raises `TypeError`), parses to an object lacking `'app_id'`
(`KeyError`), or yields a JSON value for `'app_id'`.  Python's `json` module
accepts the tokens `Infinity`, `-Infinity` and `NaN`, so a float value can be
infinite; `int()` on an infinite float raises `OverflowError`, which the
handler does *not* catch. -/

/-- A JSON value, as relevant to `int(value)`. `jinf` covers both
`Infinity` and `-Infinity`; `jfloat` is a finite float. -/
inductive JVal where
  | jnull
  | jbool (b : Bool)
  | jint (n : ℤ)
  | jfloat (q : ℚ)
  | jinf
  | jnan
  | jstr (s : String)
  | jarr
  | jobj
  deriving DecidableEq

/-- Python exceptions arising from `int(json.loads(line)['app_id'])`. -/
inductive PyErr where
  | decodeErr
  | keyErr
  | typeErr
  | valueErr
  | overflowErr
  deriving DecidableEq

/-- Which exceptions the `except (json.JSONDecodeError, KeyError, ValueError,
TypeError)` clause catches: every one of them except `OverflowError`. -/
def caughtByHandler : PyErr → Bool
  | .overflowErr => false
  | _ => true

/-- Python whitespace stripped by `int(str)`. -/
def isPyWs (c : Char) : Bool :=
  c = ' ' || c = '\t' || c = '\n' || c = '\r' || c = '\x0b' || c = '\x0c'

/-- Strip leading and trailing whitespace. -/
def trimWs (l : List Char) : List Char :=
  ((l.dropWhile isPyWs).reverse.dropWhile isPyWs).reverse

/-- Digit run with single underscores between digits, as `int(str)` accepts
after the optional sign: grammar `digit+ ('_' digit+)*`.  Returns the digit
characters with underscores removed.  Must be entered on a digit. -/
def pyDigitsCore : List Char → Option (List Char)
  | [] => some []
  | c :: rest =>
      if c.isDigit then (pyDigitsCore rest).map (c :: ·)
      else if c = '_' then
        match rest with
        | d :: _ => if d.isDigit then pyDigitsCore rest else none
        | [] => none
      else none

/-- Numeral part of `int(str)`: nonempty, starts with a digit, underscores
only between digits. -/
def pyNum (l : List Char) : Option ℕ :=
  match l with
  | [] => none
  | c :: _ =>
      if c.isDigit then
        (pyDigitsCore l).map fun ds =>
          ds.foldl (fun a d => 10 * a + (d.toNat - '0'.toNat)) 0
      else none

/-- Python `int(s)` for a string `s`: strip whitespace, optional sign,
then a digit run with optional single underscores; `none` means
`ValueError`. -/
def pyIntOfString (s : String) : Option ℤ :=
  match trimWs s.toList with
  | '+' :: rest => (pyNum rest).map (Int.ofNat)
  | '-' :: rest => (pyNum rest).map fun n => -(n : ℤ)
  | t => (pyNum t).map (Int.ofNat)

/-- Truncation toward zero, as `int(float)` performs. -/
def ratTrunc (q : ℚ) : ℤ :=
  if 0 ≤ q then ⌊q⌋ else ⌈q⌉

/-- Python `int(v)` on a JSON value `v`. -/
def pyIntOfJVal : JVal → Except PyErr ℤ
  | .jnull => .error .typeErr
  | .jbool b => .ok (if b then 1 else 0)
  | .jint n => .ok n
  | .jfloat q => .ok (ratTrunc q)
  | .jinf => .error .overflowErr
  | .jnan => .error .valueErr
  | .jstr s =>
      match pyIntOfString s with
      | some n => .ok n
      | none => .error .valueErr
  | .jarr => .error .typeErr
  | .jobj => .error .typeErr

deriving instance DecidableEq for Except

/-- One ledger line after `json.loads`. -/
inductive LedgerLine where
  | badJson
  | nonDict
  | noAppId
  | withAppId (v : JVal)
  deriving DecidableEq

/-- `int(json.loads(line)['app_id'])` without the handler. -/
def parseLine : LedgerLine → Except PyErr ℤ
  | .badJson => .error .decodeErr
  | .nonDict => .error .typeErr
  | .noAppId => .error .keyErr
  | .withAppId v => pyIntOfJVal v

/-- The app_id parseable from a line, when the whole conversion succeeds. -/
def lineParsedId (l : LedgerLine) : Option ℤ :=
  (parseLine l).toOption

/-- One loop body iteration under the handler: `.ok (some n)` adds `n`,
`.ok none` is a caught-and-skipped line, `.error ()` is an uncaught
exception escaping `get_already_processed_ids`. -/
def lineOutcome (l : LedgerLine) : Except Unit (Option ℤ) :=
  match parseLine l with
  | .ok n => .ok (some n)
  | .error e => if caughtByHandler e then .ok none else .error ()

/-- Scan the lines of one ledger file in order. -/
def scanLines : List LedgerLine → Except Unit (Finset ℤ)
  | [] => .ok ∅
  | l :: rest =>
      match lineOutcome l with
      | .error e => .error e
      | .ok none => scanLines rest
      | .ok (some n) => (scanLines rest).map (insert n)

/-- `SteamScraper.get_already_processed_ids(filenames)`: a missing file
(`none`) contributes nothing (`os.path.exists` guard); otherwise its lines
are scanned in order.  The result is the set of successfully converted
`app_id` values, unless an uncaught exception escapes. -/
def get_already_processed_ids : List (Option (List LedgerLine)) → Except Unit (Finset ℤ)
  | [] => .ok ∅
  | none :: rest => get_already_processed_ids rest
  | some ls :: rest =>
      match scanLines ls with
      | .error e => .error e
      | .ok a =>
          match get_already_processed_ids rest with
          | .error e => .error e
          | .ok b => .ok (a ∪ b)

/-- The chunk-boundary recomputation in `SteamScraper.run`:
`remaining_ids = sorted(list(all_ids - processed_ids))`. -/
def remaining_ids (all_ids : Finset ℤ) (files : List (Option (List LedgerLine))) :
    Except Unit (List ℤ) :=
  (get_already_processed_ids files).map fun p => (all_ids \ p).sort (· ≤ ·)

/-- `ids_for_this_run = remaining_ids[:chunk_size]`. -/
def ids_for_this_run (all_ids : Finset ℤ) (files : List (Option (List LedgerLine)))
    (chunk_size : ℕ) : Except Unit (List ℤ) :=
  (remaining_ids all_ids files).map (List.take chunk_size)

/-! ## Batch bookkeeping: `SteamDataProcessor` (src/SteamDataExtract.py)

Records are abstracted to naturals; a ledger file is `Option (List ℕ)`,
`none` meaning the file does not exist yet.  `_write_batch_to_file` opens the
file in append mode, which creates it when missing. -/

/-- The batch-relevant state of `SteamDataProcessor`: the two in-memory
batches and the two on-disk output files, plus `batch_size`
(the flush threshold; `SteamScraper.__init__` passes `chunk_size` for it). -/
structure SteamDataProcessorState where
  valid_data_batch : List ℕ
  invalid_data_batch : List ℕ
  output_file : Option (List ℕ)
  invalid_output_file : Option (List ℕ)
  batch_size : ℕ
  deriving DecidableEq

/-- `_write_batch_to_file`: append every record of the batch to the file,
creating the file when it does not exist. -/
def write_batch_to_file (file : Option (List ℕ)) (batch : List ℕ) : Option (List ℕ) :=
  some (file.getD [] ++ batch)

/-- `flush_batches_if_needed`: under the lock, flush-and-clear the valid batch
when its size reaches `batch_size`, then likewise the invalid batch. -/
def flush_batches_if_needed (s : SteamDataProcessorState) : SteamDataProcessorState :=
  let s1 :=
    if s.batch_size ≤ s.valid_data_batch.length then
      { s with
          valid_data_batch := []
          output_file := write_batch_to_file s.output_file s.valid_data_batch }
    else s
  if s1.batch_size ≤ s1.invalid_data_batch.length then
    { s1 with
        invalid_data_batch := []
        invalid_output_file := write_batch_to_file s1.invalid_output_file s1.invalid_data_batch }
  else s1

/-- `finalize_processing`: write-and-clear each batch, but only when it is
non-empty (`if self._valid_data_batch:` / `if self._invalid_data_batch:`). -/
def finalize_processing (s : SteamDataProcessorState) : SteamDataProcessorState :=
  let s1 :=
    if s.valid_data_batch = [] then s
    else
      { s with
          output_file := write_batch_to_file s.output_file s.valid_data_batch
          valid_data_batch := [] }
  if s1.invalid_data_batch = [] then s1
  else
    { s1 with
        invalid_output_file := write_batch_to_file s1.invalid_output_file s1.invalid_data_batch
        invalid_data_batch := [] }

/-- Modelled from the spec claim's wording, for comparison with
`finalize_processing`: writes and clears each batch unconditionally,
regardless of its size, including size zero. -/
def finalize_processing_unconditional (s : SteamDataProcessorState) :
    SteamDataProcessorState :=
  { s with
      output_file := write_batch_to_file s.output_file s.valid_data_batch
      valid_data_batch := []
      invalid_output_file := write_batch_to_file s.invalid_output_file s.invalid_data_batch
      invalid_data_batch := [] }

/-! ## Startup: catalog discovery and schema loading

`SteamScraper.run` begins with
`all_ids = discover_all_app_ids_from_json(source_file)` and returns
immediately when `not all_ids or not self.processor.schema`.  Everything
else of `run` — the fetches, chunk launches and ledger writes — sits inside
the `async with` block after this guard. -/

/-- The catalog source file: missing (`os.path.exists` fails), unreadable
(`json.JSONDecodeError` or `IOError`), or a parsed list of records, each
reduced to its `g.get("URL")` value (`none` for a missing key or a `None`
value; a non-string value would crash the comprehension and is outside this
model). -/
inductive CatalogSource where
  | missing
  | unreadable
  | parsed (records : List (Option String))
  deriving DecidableEq

/-- The regex search `re.search(r'\/app\/(\d+)\/', url)` followed by
`int(m.group(1))`: find the first position where the literal `/app/` is
followed by at least one digit and then `/`, and return those digits. -/
def extractAppId (chars : List Char) : Option ℕ :=
  match chars with
  | [] => none
  | _ :: rest =>
      match chars with
      | '/' :: 'a' :: 'p' :: 'p' :: '/' :: after =>
          let ds := after.takeWhile Char.isDigit
          let tail := after.dropWhile Char.isDigit
          if ds ≠ [] ∧ tail.head? = some '/' then
            some (ds.foldl (fun a d => 10 * a + (d.toNat - '0'.toNat)) 0)
          else extractAppId rest
      | _ => extractAppId rest

/-- `discover_all_app_ids_from_json`: empty set for a missing or unreadable
file; otherwise the set of ids extracted from records whose `URL` value is
present, non-empty (truthy) and matches the pattern. -/
def discover_all_app_ids_from_json (src : CatalogSource) : Finset ℤ :=
  match src with
  | .missing => ∅
  | .unreadable => ∅
  | .parsed records =>
      (records.filterMap fun o =>
        o.bind fun url =>
          if url = "" then none
          else (extractAppId url.toList).map fun n => (n : ℤ)).toFinset

/-- The validation-schema file: missing (`FileNotFoundError`), not valid JSON
(`json.JSONDecodeError`), or a parsed document abstracted to its Python
truthiness. -/
inductive SchemaSource where
  | missing
  | badJson
  | parsed (truthy : Bool)
  deriving DecidableEq

/-- `SteamDataProcessor._load_schema`: `None` on a missing or invalid file,
the parsed document otherwise. -/
def load_schema : SchemaSource → Option Bool
  | .missing => none
  | .badJson => none
  | .parsed t => some t

/-- The startup guard of `SteamScraper.run`: the main loop is entered only
when `all_ids` is non-empty and `self.processor.schema` is truthy. -/
def run_enters_main_loop (cat : CatalogSource) (sch : SchemaSource) : Bool :=
  if discover_all_app_ids_from_json cat = ∅ then false
  else
    match load_schema sch with
    | none => false
    | some t => t

/-! ## Concrete instances used by witnesses and counterexamples -/

/-- A configuration with `min ≤ max` on both ranges but a negative delay
range: `--min-delay -10 --max-delay -9.6` (argparse accepts any floats). -/
def exampleArgsC1 : GovArgs := ⟨1, 2, -10, -96/10, 2, 50⟩

/-- A well-formed configuration with nonnegative ranges. -/
def exampleArgsOk : GovArgs := ⟨1, 2, 3, 7, 4, 15/2⟩

/-- A governor in `OPTIMIZING` whose window is half full with one
rate-limited outcome out of two. -/
def exampleGovOpt : PerformanceGovernor :=
  ⟨⟨1, 2, 1, 2, 2, 15/2⟩, .optimizing, [.rateLimit, .success], 1, 2⟩

/-- A governor in `RECOVERING` whose window holds two clean outcomes out of
a capacity of four. -/
def exampleGovRec : PerformanceGovernor :=
  ⟨⟨1, 2, 1, 2, 4, 50⟩, .recovering, [.success, .success], 1, 2⟩

/-- One ledger file whose single line is `{"app_id": 1}`. -/
def exampleFiles : List (Option (List LedgerLine)) :=
  [some [LedgerLine.withAppId (JVal.jint 1)]]

/-- A processor state with empty batches and no output files on disk. -/
def exampleProcEmpty : SteamDataProcessorState := ⟨[], [], none, none, 20⟩

/-- A processor state whose valid batch reaches the threshold 2 and whose
invalid batch stays below it. -/
def exampleProcMixed : SteamDataProcessorState := ⟨[5, 6], [7], some [1], none, 2⟩

/-! ## Governor lemmas -/

/-- `assess_and_adjust` does not change the configuration. -/
theorem assess_args (g : PerformanceGovernor) : (g.assess_and_adjust).args = g.args := by
  unfold PerformanceGovernor.assess_and_adjust
  split
  · rfl
  · split
    · rfl
    · rfl
    · split
      · rfl
      · rfl

/-- No governor call changes the configuration. -/
theorem applyOp_args (g : PerformanceGovernor) (op : GovOp) : (applyOp g op).args = g.args := by
  cases op with
  | record o => rfl
  | reset => rfl
  | assess => exact assess_args g

/-- `assess_and_adjust` preserves the bounds, provided the configured ranges
are well formed and nonnegative. -/
theorem assess_inBounds (g : PerformanceGovernor)
    (hmc : g.args.min_concurrency ≤ g.args.max_concurrency)
    (hmd : g.args.min_delay ≤ g.args.max_delay)
    (hc0 : 0 ≤ g.args.min_concurrency) (hd0 : 0 ≤ g.args.min_delay)
    (hb : InBounds g) : InBounds g.assess_and_adjust := by
  obtain ⟨h1, h2, h3, h4⟩ := hb
  unfold PerformanceGovernor.assess_and_adjust
  split
  · exact ⟨h1, h2, h3, h4⟩
  · split
    · refine ⟨?_, ?_, le_max_left _ _,
        max_le hmd (le_trans (mul_le_of_le_one_right (hd0.trans h3) (by norm_num)) h4)⟩
      · split
        · exact le_min hmc (h1.trans (by linarith))
        · exact h1
      · split
        · exact min_le_left _ _
        · exact h2
    · exact ⟨le_max_left _ _,
        max_le hmc (le_trans (mul_le_of_le_one_right (hc0.trans h1) (by norm_num)) h2),
        le_min hmd (h3.trans (le_mul_of_one_le_right (hd0.trans h3) (by norm_num))),
        min_le_left _ _⟩
    · split
      · exact ⟨h1, h2, h3, h4⟩
      · exact ⟨h1, h2, h3, h4⟩

/-- One governor call preserves the bounds. -/
theorem applyOp_inBounds (g : PerformanceGovernor)
    (hmc : g.args.min_concurrency ≤ g.args.max_concurrency)
    (hmd : g.args.min_delay ≤ g.args.max_delay)
    (hc0 : 0 ≤ g.args.min_concurrency) (hd0 : 0 ≤ g.args.min_delay)
    (hb : InBounds g) (op : GovOp) : InBounds (applyOp g op) := by
  cases op with
  | record o => exact hb
  | reset => exact ⟨le_refl _, hmc, hmd, le_refl _⟩
  | assess => exact assess_inBounds g hmc hmd hc0 hd0 hb

/-- The bounds are preserved along any sequence of governor calls. -/
theorem runOps_inBounds (a : GovArgs)
    (hmc : a.min_concurrency ≤ a.max_concurrency) (hmd : a.min_delay ≤ a.max_delay)
    (hc0 : 0 ≤ a.min_concurrency) (hd0 : 0 ≤ a.min_delay)
    (ops : List GovOp) (g : PerformanceGovernor)
    (hargs : g.args = a) (hb : InBounds g) : InBounds (runOps g ops) := by
  induction ops generalizing g with
  | nil => exact hb
  | cons op rest ih =>
      refine ih (applyOp g op) ?_ ?_
      · rw [applyOp_args, hargs]
      · exact applyOp_inBounds g (by rw [hargs]; exact hmc) (by rw [hargs]; exact hmd)
          (by rw [hargs]; exact hc0) (by rw [hargs]; exact hd0) hb op

/-! ## Claim C1 -/

/-- Claim C1, counterexample.  The claim as stated — bounds preserved for
*every* configuration with `minConcurrency ≤ maxConcurrency` and
`minDelay ≤ maxDelay` — fails: with the negative delay range
`[-10, -9.6]` (accepted by argparse, and satisfying both ordering
hypotheses), one recorded outcome followed by one `assess_and_adjust` drives
`current_delay` to `-9.31 > maxDelay`, because `delay * 0.95` *grows* a
negative delay. -/
theorem claim_C1_counterexample :
    exampleArgsC1.min_concurrency ≤ exampleArgsC1.max_concurrency ∧
    exampleArgsC1.min_delay ≤ exampleArgsC1.max_delay ∧
    ¬ InBounds (runOps (PerformanceGovernor.init exampleArgsC1)
        [GovOp.record RequestOutcome.success, GovOp.assess]) := by
  refine ⟨by norm_num [exampleArgsC1], by norm_num [exampleArgsC1], ?_⟩
  intro hb
  have hd := hb.2.2.2
  have hargs : (runOps (PerformanceGovernor.init exampleArgsC1)
      [GovOp.record RequestOutcome.success, GovOp.assess]).args = exampleArgsC1 := by
    show (applyOp (applyOp (PerformanceGovernor.init exampleArgsC1)
      (GovOp.record RequestOutcome.success)) GovOp.assess).args = exampleArgsC1
    rw [applyOp_args, applyOp_args]
    rfl
  have h : (runOps (PerformanceGovernor.init exampleArgsC1)
      [GovOp.record RequestOutcome.success, GovOp.assess]).current_delay = -931/100 := by
    simp [runOps, applyOp, PerformanceGovernor.record_outcome,
      PerformanceGovernor.assess_and_adjust, appendBounded, exampleArgsC1,
      transitionState, rlFraction, PerformanceGovernor.init, max_def, min_def]
    norm_num
  rw [hargs, h] at hd
  norm_num [exampleArgsC1] at hd

/-- Claim C1 (amended): for every configuration with
`minConcurrency ≤ maxConcurrency`, `minDelay ≤ maxDelay` and *nonnegative*
`minConcurrency` and `minDelay`, every sequence of `record_outcome`,
`assess_and_adjust` and `reset_after_ban` calls starting from a freshly
constructed `PerformanceGovernor` keeps `current_concurrency` within
`[minConcurrency, maxConcurrency]` and `current_delay` within
`[minDelay, maxDelay]`. -/
theorem claim_C1_theorem (a : GovArgs)
    (hmc : a.min_concurrency ≤ a.max_concurrency)
    (hmd : a.min_delay ≤ a.max_delay)
    (hc0 : 0 ≤ a.min_concurrency) (hd0 : 0 ≤ a.min_delay)
    (ops : List GovOp) : InBounds (runOps (PerformanceGovernor.init a) ops) := by
  refine runOps_inBounds a hmc hmd hc0 hd0 ops _ rfl ?_
  refine ⟨le_refl _, hmc, ?_, ?_⟩
  · show a.min_delay ≤ (a.min_delay + a.max_delay) / 2
    linarith
  · show (a.min_delay + a.max_delay) / 2 ≤ a.max_delay
    linarith

/-- Witness for C1: the hypotheses hold at the configuration
`⟨1, 2, 3, 7, 4, 7.5⟩` and a concrete call sequence containing all three
kinds of operation stays in bounds. -/
theorem claim_C1_witness :
    exampleArgsOk.min_concurrency ≤ exampleArgsOk.max_concurrency ∧
    exampleArgsOk.min_delay ≤ exampleArgsOk.max_delay ∧
    0 ≤ exampleArgsOk.min_concurrency ∧ 0 ≤ exampleArgsOk.min_delay ∧
    InBounds (runOps (PerformanceGovernor.init exampleArgsOk)
      [GovOp.record RequestOutcome.rateLimit, GovOp.record RequestOutcome.rateLimit,
       GovOp.assess, GovOp.reset, GovOp.record RequestOutcome.success, GovOp.assess]) :=
  ⟨by norm_num [exampleArgsOk], by norm_num [exampleArgsOk],
   by norm_num [exampleArgsOk], by norm_num [exampleArgsOk],
   claim_C1_theorem exampleArgsOk (by norm_num [exampleArgsOk])
     (by norm_num [exampleArgsOk]) (by norm_num [exampleArgsOk])
     (by norm_num [exampleArgsOk]) _⟩

/-- Resulting state of an acting `assess_and_adjust` call from `OPTIMIZING`:
`THROTTLED` on a strict threshold crossing, `OPTIMIZING` otherwise. -/
theorem assess_state_optimizing (g : PerformanceGovernor)
    (hact : g.args.history_size ≤ 2 * g.history.length)
    (hst : g.state = .optimizing) :
    (g.assess_and_adjust).state =
      if g.args.throttle_threshold_pct / 100 < rlFraction g then .throttled
      else .optimizing := by
  unfold PerformanceGovernor.assess_and_adjust
  rw [if_neg (by omega)]
  by_cases hp : g.args.throttle_threshold_pct / 100 < rlFraction g
  · have ht : transitionState g (rlFraction g) = .throttled := by
      simp [transitionState, hst, hp]
    rw [ht, if_pos hp]
  · have ht : transitionState g (rlFraction g) = .optimizing := by
      simp [transitionState, hst, hp]
    rw [ht, if_neg hp]

/-- Resulting state of `assess_and_adjust` from `RECOVERING`: `OPTIMIZING`
exactly when the call acts (window at least half full) and the rate-limited
fraction is zero. -/
theorem assess_state_recovering (g : PerformanceGovernor)
    (hst : g.state = .recovering) :
    (g.assess_and_adjust).state =
      if g.args.history_size ≤ 2 * g.history.length ∧ rlFraction g = 0 then .optimizing
      else .recovering := by
  unfold PerformanceGovernor.assess_and_adjust
  have htr : transitionState g (rlFraction g) = .recovering := by
    simp [transitionState, hst]
  by_cases hact : 2 * g.history.length < g.args.history_size
  · rw [if_pos hact, if_neg (fun h => absurd h.1 (by omega)), hst]
  · rw [if_neg hact, htr]
    show (if rlFraction g = 0 then { g with state := GovernorState.optimizing } else g).state =
      if g.args.history_size ≤ 2 * g.history.length ∧ rlFraction g = 0 then .optimizing
      else .recovering
    by_cases hp : rlFraction g = 0
    · rw [if_pos hp, if_pos ⟨by omega, hp⟩]
    · rw [if_neg hp, if_neg (fun h => hp h.2), hst]

/-! ## Claim C3 -/

/-- Claim C3 (confirmed): from `OPTIMIZING`, with the acting precondition of
`assess_and_adjust` (window at least `historySize / 2` full; `historySize ≥ 1`
excludes the degenerate empty-window division), one call moves the state to
`THROTTLED` exactly when the rate-limited fraction strictly exceeds
`throttleThresholdPct / 100`, and leaves it `OPTIMIZING` exactly when the
fraction is at or below the threshold. -/
theorem claim_C3_theorem (g : PerformanceGovernor)
    (hwin : 1 ≤ g.args.history_size)
    (hact : g.args.history_size ≤ 2 * g.history.length)
    (hst : g.state = .optimizing) :
    ((g.assess_and_adjust).state = .throttled ↔
      g.args.throttle_threshold_pct / 100 < rlFraction g) ∧
    ((g.assess_and_adjust).state = .optimizing ↔
      rlFraction g ≤ g.args.throttle_threshold_pct / 100) := by
  rw [assess_state_optimizing g hact hst]
  by_cases hp : g.args.throttle_threshold_pct / 100 < rlFraction g
  · rw [if_pos hp]
    exact ⟨iff_of_true rfl hp, iff_of_false (by decide) (not_le.mpr hp)⟩
  · rw [if_neg hp]
    exact ⟨iff_of_false (by decide) hp, iff_of_true rfl (not_lt.mp hp)⟩

/-- Witness for C3: a governor in `OPTIMIZING` with window capacity 2, history
`[RATE_LIMIT, SUCCESS]` (fraction 1/2) and threshold 7.5 %. -/
theorem claim_C3_witness :
    1 ≤ exampleGovOpt.args.history_size ∧
    exampleGovOpt.args.history_size ≤ 2 * exampleGovOpt.history.length ∧
    exampleGovOpt.state = .optimizing ∧
    (((exampleGovOpt.assess_and_adjust).state = .throttled ↔
        exampleGovOpt.args.throttle_threshold_pct / 100 < rlFraction exampleGovOpt) ∧
      ((exampleGovOpt.assess_and_adjust).state = .optimizing ↔
        rlFraction exampleGovOpt ≤ exampleGovOpt.args.throttle_threshold_pct / 100)) :=
  ⟨by norm_num [exampleGovOpt], by norm_num [exampleGovOpt], rfl,
    claim_C3_theorem exampleGovOpt (by norm_num [exampleGovOpt])
      (by norm_num [exampleGovOpt]) rfl⟩

/-! ## Claim C4 -/

/-- Claim C4, counterexample.  The claim as stated requires a *completely
full* window (`historySize` outcomes) with zero `RateLimited` before
`RECOVERING` may transition to `OPTIMIZING`; but the code only requires the
acting precondition (half-full window).  Here capacity is 4, the window holds
just 2 clean outcomes, and one call still transitions to `OPTIMIZING`. -/
theorem claim_C4_counterexample :
    exampleGovRec.state = GovernorState.recovering ∧
    exampleGovRec.history.length < exampleGovRec.args.history_size ∧
    (exampleGovRec.assess_and_adjust).state = GovernorState.optimizing := by
  refine ⟨rfl, by norm_num [exampleGovRec], ?_⟩
  rw [assess_state_recovering exampleGovRec rfl, if_pos]
  constructor
  · norm_num [exampleGovRec]
  · show rlFraction exampleGovRec = 0
    have h0 : exampleGovRec.history.count RequestOutcome.rateLimit = 0 := by decide
    unfold rlFraction
    rw [h0]
    norm_num

/-- Claim C4 (amended): while in `RECOVERING`, `assess_and_adjust` never
transitions to `OPTIMIZING` while any `RateLimited` outcome remains in the
window, and it transitions exactly on the first call at which the window
holds at least `historySize / 2` outcomes (the acting precondition — not a
completely full window) and contains zero `RateLimited` outcomes. -/
theorem claim_C4_theorem (g : PerformanceGovernor)
    (hwin : 1 ≤ g.args.history_size)
    (hst : g.state = .recovering) :
    ((g.assess_and_adjust).state = .optimizing ↔
      (g.args.history_size ≤ 2 * g.history.length ∧
        g.history.count RequestOutcome.rateLimit = 0)) ∧
    ((g.assess_and_adjust).state = .recovering ↔
      ¬ (g.args.history_size ≤ 2 * g.history.length ∧
        g.history.count RequestOutcome.rateLimit = 0)) := by
  rw [assess_state_recovering g hst]
  have hfrac : ∀ (hle : g.args.history_size ≤ 2 * g.history.length),
      (rlFraction g = 0 ↔ g.history.count RequestOutcome.rateLimit = 0) := by
    intro hle
    have hlen : (g.history.length : ℚ) ≠ 0 := by
      have : 0 < g.history.length := by omega
      exact_mod_cast Nat.pos_iff_ne_zero.mp this
    unfold rlFraction
    rw [div_eq_zero_iff]
    simp [hlen]
  by_cases hc : g.args.history_size ≤ 2 * g.history.length ∧ rlFraction g = 0
  · rw [if_pos hc]
    have : g.args.history_size ≤ 2 * g.history.length ∧
        g.history.count RequestOutcome.rateLimit = 0 :=
      ⟨hc.1, (hfrac hc.1).mp hc.2⟩
    exact ⟨iff_of_true rfl this, iff_of_false (by decide) (by tauto)⟩
  · rw [if_neg hc]
    have : ¬ (g.args.history_size ≤ 2 * g.history.length ∧
        g.history.count RequestOutcome.rateLimit = 0) := by
      intro h
      exact hc ⟨h.1, (hfrac h.1).mpr h.2⟩
    exact ⟨iff_of_false (by decide) this, iff_of_true rfl this⟩

/-- Witness for C4: the governor of the counterexample also witnesses the
amended statement — two clean outcomes out of capacity 4 satisfy the acting
precondition with zero `RateLimited`, so the transition fires. -/
theorem claim_C4_witness :
    1 ≤ exampleGovRec.args.history_size ∧
    exampleGovRec.state = .recovering ∧
    (((exampleGovRec.assess_and_adjust).state = .optimizing ↔
        (exampleGovRec.args.history_size ≤ 2 * exampleGovRec.history.length ∧
          exampleGovRec.history.count RequestOutcome.rateLimit = 0)) ∧
      ((exampleGovRec.assess_and_adjust).state = .recovering ↔
        ¬ (exampleGovRec.args.history_size ≤ 2 * exampleGovRec.history.length ∧
          exampleGovRec.history.count RequestOutcome.rateLimit = 0))) :=
  ⟨by norm_num [exampleGovRec], rfl,
    claim_C4_theorem exampleGovRec (by norm_num [exampleGovRec]) rfl⟩

/-! ## Claim C7 -/

/-- `assess_and_adjust` never moves a governor that is not in `RECOVERING`
into `RECOVERING`. -/
theorem assess_state_ne_recovering (g : PerformanceGovernor)
    (h : g.state ≠ .recovering) : (g.assess_and_adjust).state ≠ .recovering := by
  unfold PerformanceGovernor.assess_and_adjust
  split
  · exact h
  · split
    · simp
    · simp
    · split
      · simp
      · exact h

/-- Claim C7 (confirmed): `RECOVERING` is entered only by the explicit
hard-block reset — no `assess_and_adjust` call from a non-`RECOVERING` state
ever yields `RECOVERING` — and `reset_after_ban` always leaves the governor
in `RECOVERING` with `current_concurrency = minConcurrency`,
`current_delay = maxDelay` and an empty history window. -/
theorem claim_C7_theorem (g : PerformanceGovernor) :
    (g.state ≠ .recovering → (g.assess_and_adjust).state ≠ .recovering) ∧
    (g.reset_after_ban).state = .recovering ∧
    (g.reset_after_ban).current_concurrency = g.args.min_concurrency ∧
    (g.reset_after_ban).current_delay = g.args.max_delay ∧
    (g.reset_after_ban).history = [] :=
  ⟨assess_state_ne_recovering g, rfl, rfl, rfl, rfl⟩

/-- Witness for C7 at a concrete governor in `OPTIMIZING`. -/
theorem claim_C7_witness :
    exampleGovOpt.state ≠ GovernorState.recovering ∧
    (exampleGovOpt.assess_and_adjust).state ≠ GovernorState.recovering ∧
    (exampleGovOpt.reset_after_ban).state = .recovering ∧
    (exampleGovOpt.reset_after_ban).history = [] :=
  ⟨by decide, (claim_C7_theorem exampleGovOpt).1 (by decide),
    (claim_C7_theorem exampleGovOpt).2.1, (claim_C7_theorem exampleGovOpt).2.2.2.2⟩

/-! ## Claim C9 -/

/-- Claim C9 (confirmed): `assess_and_adjust` is deterministic — two
governors agreeing on configuration, state, history, concurrency and delay
produce identical results — while `get_delay` multiplies `current_delay` by
the random factor, and for every factor in `[0.8, 1.2]` (the range of
`random.uniform(0.8, 1.2)`) the returned delay lies within
`[0.8 × current_delay, 1.2 × current_delay]` (for a nonnegative delay). -/
theorem claim_C9_theorem (g1 g2 : PerformanceGovernor) (r : ℚ)
    (hargs : g1.args = g2.args) (hst : g1.state = g2.state)
    (hh : g1.history = g2.history)
    (hc : g1.current_concurrency = g2.current_concurrency)
    (hd : g1.current_delay = g2.current_delay)
    (hd0 : 0 ≤ g1.current_delay) (hr1 : 4/5 ≤ r) (hr2 : r ≤ 6/5) :
    g1.assess_and_adjust = g2.assess_and_adjust ∧
    4/5 * g1.current_delay ≤ g1.get_delay r ∧
    g1.get_delay r ≤ 6/5 * g1.current_delay := by
  have hg : g1 = g2 := by
    cases g1
    cases g2
    simp_all
  refine ⟨by rw [hg], ?_, ?_⟩
  · show 4/5 * g1.current_delay ≤ g1.current_delay * r
    calc 4/5 * g1.current_delay = g1.current_delay * (4/5) := by ring
      _ ≤ g1.current_delay * r := mul_le_mul_of_nonneg_left hr1 hd0
  · show g1.current_delay * r ≤ 6/5 * g1.current_delay
    calc g1.current_delay * r ≤ g1.current_delay * (6/5) := mul_le_mul_of_nonneg_left hr2 hd0
      _ = 6/5 * g1.current_delay := by ring

/-- Witness for C9 at a concrete governor and the factor 1. -/
theorem claim_C9_witness :
    (0 : ℚ) ≤ exampleGovOpt.current_delay ∧ (4/5 : ℚ) ≤ 1 ∧ (1 : ℚ) ≤ 6/5 ∧
    exampleGovOpt.assess_and_adjust = exampleGovOpt.assess_and_adjust ∧
    4/5 * exampleGovOpt.current_delay ≤ exampleGovOpt.get_delay 1 ∧
    exampleGovOpt.get_delay 1 ≤ 6/5 * exampleGovOpt.current_delay := by
  have h := claim_C9_theorem exampleGovOpt exampleGovOpt 1 rfl rfl rfl rfl rfl
    (by norm_num [exampleGovOpt]) (by norm_num) (by norm_num)
  exact ⟨by norm_num [exampleGovOpt], by norm_num, by norm_num, h.1, h.2.1, h.2.2⟩

/-! ## Claim C5 -/

/-- `statusStep` yields `rl` exactly on 429. -/
theorem statusStep_rl {st : ℕ} : statusStep st = .rl ↔ st = 429 := by
  unfold statusStep
  split_ifs <;> simp_all

/-- `statusStep` yields `ban` exactly on 403. -/
theorem statusStep_ban {st : ℕ} : statusStep st = .ban ↔ st = 403 := by
  unfold statusStep
  split_ifs <;> simp_all

/-- `statusStep` yields `err` exactly on the remaining statuses ≥ 400. -/
theorem statusStep_err {st : ℕ} :
    statusStep st = .err ↔ (st ≠ 429 ∧ st ≠ 403 ∧ 400 ≤ st) := by
  unfold statusStep
  split_ifs <;> simp_all

/-- `statusStep` yields `pass` exactly below 400 (429 and 403 excluded). -/
theorem statusStep_pass {st : ℕ} :
    statusStep st = .pass ↔ (st ≠ 429 ∧ st ≠ 403 ∧ st < 400) := by
  unfold statusStep
  split_ifs <;> simp_all

/-- `respPasses` in terms of `statusStep`. -/
theorem respPasses_iff {st : ℕ} {b m : Bool} :
    respPasses (.ok st b m) ↔ statusStep st = .pass := by
  rw [statusStep_pass]
  rfl

/-- Claim C5, counterexample.  The claim as stated demands `HardBlocked`
whenever *any* of the three responses has status 403, "regardless of the
other responses' statuses"; but the status loop checks 429 *before* 403 on
each response and scans the responses in order, so a 429 on the details
response together with a 403 on the reviews response classifies the attempt
`RateLimited`, not `HardBlocked`. -/
theorem claim_C5_counterexample :
    respHasStatus (.ok 403 true false) 403 ∧
    classifyAttempt (.ok 429 true false) (.ok 403 true false) (.ok 200 true false) true ≠
      AttemptClass.hardBlocked ∧
    classifyAttempt (.ok 429 true false) (.ok 403 true false) (.ok 200 true false) true =
      AttemptClass.rateLimited := by
  refine ⟨rfl, ?_, rfl⟩
  decide

/-- Claim C5 (amended): provided all three `session.get` calls return
(`allFetched`; a network error on any of them classifies the attempt
`TransientFailure`), the responses are examined in the order details,
reviews, store page, and within each response 429 takes precedence over 403,
which takes precedence over the other error statuses.  The attempt is
`HardBlocked` when a 403 is reached before any 429 or other error status, or
when all statuses pass, both JSON payloads parse and the store-page body
carries the block marker; `RateLimited` when a 429 is reached first;
`Success` exactly when all statuses pass, the payloads are well formed, no
block marker is present and the downstream processing raises nothing;
everything else — including timeouts, connection errors, malformed payloads
and other statuses — is `TransientFailure` (swallowed by the code, which
returns `FAILURE` instead of propagating). -/
theorem claim_C5_theorem (d r s : FetchResp) (pOk : Bool) :
    (classifyAttempt d r s pOk = .hardBlocked ↔
      (allFetched d r s ∧
        (respHasStatus d 403 ∨
          (respPasses d ∧ respHasStatus r 403) ∨
          (respPasses d ∧ respPasses r ∧ respHasStatus s 403) ∨
          (respPasses d ∧ respPasses r ∧ respPasses s ∧
            respJsonOk d ∧ respJsonOk r ∧ respMarker s)))) ∧
    (classifyAttempt d r s pOk = .rateLimited ↔
      (allFetched d r s ∧
        (respHasStatus d 429 ∨
          (respPasses d ∧ respHasStatus r 429) ∨
          (respPasses d ∧ respPasses r ∧ respHasStatus s 429)))) ∧
    (classifyAttempt d r s pOk = .success ↔
      (respPasses d ∧ respPasses r ∧ respPasses s ∧
        respJsonOk d ∧ respJsonOk r ∧ ¬ respMarker s ∧ pOk = true)) := by
  rcases d with _ | ⟨sd, bd, md⟩
  · simp [classifyAttempt, allFetched, respPasses]
  rcases r with _ | ⟨sr, br, mr⟩
  · simp [classifyAttempt, allFetched, respPasses]
  rcases s with _ | ⟨ss2, bs, ms⟩
  · simp [classifyAttempt, allFetched, respPasses]
  simp only [classifyAttempt, allFetched, ne_eq, reduceCtorEq, not_false_eq_true, true_and,
    and_true]
  rcases hd : statusStep sd with _ | _ | _ | _ <;>
    rcases hr : statusStep sr with _ | _ | _ | _ <;>
      rcases hss : statusStep ss2 with _ | _ | _ | _ <;>
        simp only [hd, hr, hss]
  all_goals (
    first
      | replace hd := statusStep_rl.mp hd
      | replace hd := statusStep_ban.mp hd
      | replace hd := statusStep_err.mp hd
      | replace hd := statusStep_pass.mp hd)
  all_goals (
    first
      | replace hr := statusStep_rl.mp hr
      | replace hr := statusStep_ban.mp hr
      | replace hr := statusStep_err.mp hr
      | replace hr := statusStep_pass.mp hr)
  all_goals (
    first
      | replace hss := statusStep_rl.mp hss
      | replace hss := statusStep_ban.mp hss
      | replace hss := statusStep_err.mp hss
      | replace hss := statusStep_pass.mp hss)
  all_goals try subst hd
  all_goals try subst hr
  all_goals try subst hss
  all_goals try (simp_all [respPasses, respHasStatus, respJsonOk, respMarker])
  cases bd <;> cases br <;> cases ms <;> cases pOk <;> simp

/-! ## Claim C6 -/

/-- Claim C6, counterexample.  The claim states that `finalize_processing`
writes and clears each batch "unconditionally, regardless of its size,
including size zero"; but the code guards each flush with
`if self._valid_data_batch:` / `if self._invalid_data_batch:`, so an empty
batch is not written at all.  On a state with empty batches and no output
files on disk, the unconditional variant would create both files (append
mode creates missing files) while the code leaves the state — and the
missing files — untouched. -/
theorem claim_C6_counterexample :
    finalize_processing exampleProcEmpty ≠ finalize_processing_unconditional exampleProcEmpty ∧
    (finalize_processing exampleProcEmpty).output_file = none ∧
    (finalize_processing_unconditional exampleProcEmpty).output_file = some [] := by
  refine ⟨?_, rfl, rfl⟩
  decide

/-- Claim C6 (amended): `flush_batches_if_needed` writes a batch (valid or
invalid) to its ledger file and clears it exactly when that batch's size is
at least `batch_size`, leaving the other batch untouched when it is below
threshold; `finalize_processing` (invoked at hibernation and at final
shutdown) writes and clears each batch whenever it is *non-empty*, and
leaves an empty batch — and in particular a still-missing ledger file —
untouched. -/
theorem claim_C6_theorem (s : SteamDataProcessorState) :
    (flush_batches_if_needed s).valid_data_batch =
      (if s.batch_size ≤ s.valid_data_batch.length then [] else s.valid_data_batch) ∧
    (flush_batches_if_needed s).output_file =
      (if s.batch_size ≤ s.valid_data_batch.length then
        write_batch_to_file s.output_file s.valid_data_batch else s.output_file) ∧
    (flush_batches_if_needed s).invalid_data_batch =
      (if s.batch_size ≤ s.invalid_data_batch.length then [] else s.invalid_data_batch) ∧
    (flush_batches_if_needed s).invalid_output_file =
      (if s.batch_size ≤ s.invalid_data_batch.length then
        write_batch_to_file s.invalid_output_file s.invalid_data_batch
       else s.invalid_output_file) ∧
    (finalize_processing s).valid_data_batch = [] ∧
    (finalize_processing s).output_file =
      (if s.valid_data_batch = [] then s.output_file
       else write_batch_to_file s.output_file s.valid_data_batch) ∧
    (finalize_processing s).invalid_data_batch = [] ∧
    (finalize_processing s).invalid_output_file =
      (if s.invalid_data_batch = [] then s.invalid_output_file
       else write_batch_to_file s.invalid_output_file s.invalid_data_batch) := by
  unfold flush_batches_if_needed finalize_processing
  split_ifs <;> simp_all [-not_le, -Nat.not_le]

/-! ## Ledger-scan lemmas -/

/-- The loop-body outcome determines the parseable id of the line. -/
theorem lineParsedId_of_outcome {l : LedgerLine} {o : Option ℤ}
    (h : lineOutcome l = .ok o) : lineParsedId l = o := by
  unfold lineOutcome at h
  unfold lineParsedId
  cases hp : parseLine l with
  | ok m =>
      rw [hp] at h
      simp_all [Except.toOption]
  | error e =>
      rw [hp] at h
      cases e <;> simp_all [Except.toOption, caughtByHandler]

/-- Membership in a successful `scanLines` result is exactly having a line
whose `app_id` conversion succeeds with that value. -/
theorem scanLines_ok_mem (ls : List LedgerLine) (S : Finset ℤ)
    (h : scanLines ls = .ok S) (n : ℤ) :
    n ∈ S ↔ ∃ l ∈ ls, lineParsedId l = some n := by
  induction ls generalizing S with
  | nil =>
      injection h with h'
      subst h'
      simp
  | cons l rest ih =>
      unfold scanLines at h
      cases hlo : lineOutcome l with
      | error e =>
          rw [hlo] at h
          cases h
      | ok o =>
          rw [hlo] at h
          have hid := lineParsedId_of_outcome hlo
          cases o with
          | none =>
              rw [ih S h]
              simp [hid]
          | some m =>
              cases hrest : scanLines rest with
              | error e =>
                  rw [hrest] at h
                  cases h
              | ok B =>
                  rw [hrest] at h
                  injection h with h'
                  subst h'
                  rw [Finset.mem_insert, ih B hrest]
                  constructor
                  · rintro (rfl | ⟨le, hmem, hpe⟩)
                    · exact ⟨l, List.mem_cons_self l rest, hid⟩
                    · exact ⟨le, List.mem_cons_of_mem l hmem, hpe⟩
                  · rintro ⟨le, hmem, hpe⟩
                    cases hmem with
                    | head =>
                        rw [hid] at hpe
                        injection hpe with h2
                        exact Or.inl h2.symm
                    | tail _ hmem2 => exact Or.inr ⟨le, hmem2, hpe⟩

/-- Membership in a successful scan over several ledger files. -/
theorem get_already_processed_ids_mem (files : List (Option (List LedgerLine)))
    (P : Finset ℤ) (h : get_already_processed_ids files = .ok P) (n : ℤ) :
    n ∈ P ↔ ∃ f ∈ files, ∃ ls, f = some ls ∧ ∃ l ∈ ls, lineParsedId l = some n := by
  induction files generalizing P with
  | nil =>
      injection h with h'
      subst h'
      simp
  | cons f rest ih =>
      cases f with
      | none =>
          rw [show get_already_processed_ids (none :: rest) =
            get_already_processed_ids rest from rfl] at h
          rw [ih P h]
          simp
      | some ls =>
          unfold get_already_processed_ids at h
          cases hsc : scanLines ls with
          | error e =>
              rw [hsc] at h
              cases h
          | ok A =>
              rw [hsc] at h
              cases hrest : get_already_processed_ids rest with
              | error e =>
                  rw [hrest] at h
                  cases h
              | ok B =>
                  rw [hrest] at h
                  injection h with h'
                  subst h'
                  rw [Finset.mem_union, scanLines_ok_mem ls A hsc n, ih B hrest]
                  constructor
                  · rintro (hA | ⟨f, hf, hex⟩)
                    · exact ⟨some ls, List.mem_cons_self _ rest, ls, rfl, hA⟩
                    · exact ⟨f, List.mem_cons_of_mem _ hf, hex⟩
                  · rintro ⟨f, hf, ls2, hfeq, hex⟩
                    cases hf with
                    | head =>
                        injection hfeq with h2
                        subst h2
                        exact Or.inl hex
                    | tail _ hf2 => exact Or.inr ⟨f, hf2, ls2, hfeq, hex⟩

/-! ## Claim C2 -/

/-- Claim C2 (confirmed): at a chunk boundary, when the ledger scan succeeds
with result `processed` (which is exactly the set of `app_id`s parseable from
the ledger files as they exist on disk at that moment), the launched chunk
`ids_for_this_run` is a strictly ascending list of elements of
`universe \ processed`, of length `min chunkSize |universe \ processed|`, and
every element of the difference left out of the chunk is larger than every
element of the chunk — i.e. the chunk is exactly the `chunkSize` smallest
remaining identifiers in ascending order.  The loop exits
(`if not remaining_ids: break`) exactly when the difference is empty.
Because the chunk is a function of the file contents alone, a
killed-and-restarted run resumes from exactly the identifiers not present in
either ledger file. -/
theorem claim_C2_theorem (all_ids : Finset ℤ) (files : List (Option (List LedgerLine)))
    (chunk_size : ℕ) (processed : Finset ℤ)
    (h : get_already_processed_ids files = .ok processed) :
    (∀ n : ℤ, n ∈ processed ↔
      ∃ f ∈ files, ∃ ls, f = some ls ∧ ∃ l ∈ ls, lineParsedId l = some n) ∧
    (∃ chunk : List ℤ,
      ids_for_this_run all_ids files chunk_size = .ok chunk ∧
      List.Sorted (· < ·) chunk ∧
      (∀ x ∈ chunk, x ∈ all_ids \ processed) ∧
      chunk.length = min chunk_size (all_ids \ processed).card ∧
      (∀ x ∈ all_ids \ processed, x ∉ chunk → ∀ y ∈ chunk, y < x)) ∧
    (remaining_ids all_ids files = .ok [] ↔ all_ids \ processed = ∅) := by
  have hrem : remaining_ids all_ids files =
      .ok ((all_ids \ processed).sort (· ≤ ·)) := by
    unfold remaining_ids
    rw [h]
    rfl
  refine ⟨get_already_processed_ids_mem files processed h, ?_, ?_⟩
  · refine ⟨((all_ids \ processed).sort (· ≤ ·)).take chunk_size, ?_, ?_, ?_, ?_, ?_⟩
    · unfold ids_for_this_run
      rw [hrem]
      rfl
    · exact (Finset.sort_sorted_lt _).sublist (List.take_sublist _ _)
    · intro x hx
      exact (Finset.mem_sort (α := ℤ) (· ≤ ·)).mp (List.mem_of_mem_take hx)
    · rw [List.length_take, Finset.length_sort]
    · intro x hx hxchunk y hy
      have hpair : List.Pairwise (· < ·)
          (((all_ids \ processed).sort (· ≤ ·)).take chunk_size ++
            ((all_ids \ processed).sort (· ≤ ·)).drop chunk_size) := by
        rw [List.take_append_drop]
        exact Finset.sort_sorted_lt _
      have hxdrop : x ∈ ((all_ids \ processed).sort (· ≤ ·)).drop chunk_size := by
        have hxsort : x ∈ (all_ids \ processed).sort (· ≤ ·) :=
          (Finset.mem_sort (α := ℤ) (· ≤ ·)).mpr hx
        have hsplit := List.take_append_drop chunk_size ((all_ids \ processed).sort (· ≤ ·))
        rw [← hsplit] at hxsort
        rcases List.mem_append.mp hxsort with hcase | hcase
        · exact absurd hcase hxchunk
        · exact hcase
      exact (List.pairwise_append.mp hpair).2.2 y hy x hxdrop
  · rw [hrem]
    constructor
    · intro he
      injection he with he'
      have : (all_ids \ processed).card = 0 := by
        rw [← Finset.length_sort (· ≤ ·), he']
        rfl
      exact Finset.card_eq_zero.mp this
    · intro he
      rw [he, Finset.sort_empty]

/-- Witness for C2: universe `{1, 2, 3}`, one ledger file containing
`{"app_id": 1}`, chunk size 2.  The scan succeeds with `{1}`, and the
exit condition instance follows by applying the theorem. -/
theorem claim_C2_witness :
    get_already_processed_ids exampleFiles = .ok {1} ∧
    (remaining_ids {1, 2, 3} exampleFiles = .ok [] ↔
      ({1, 2, 3} : Finset ℤ) \ {1} = ∅) :=
  ⟨by decide, (claim_C2_theorem {1, 2, 3} exampleFiles 2 {1} (by decide)).2.2⟩

/-! ## Claim C8 -/

/-- Claim C8 (confirmed): when the catalog source file is missing, unreadable
or yields no identifiers, or the validation-schema file is missing or not
valid JSON, the guard `if not all_ids or not self.processor.schema: return`
fires, so `run()` returns before entering the main loop.  Every fetch, chunk
launch and ledger write of `run` sits inside the `async with` block after
this guard, so none of them happens. -/
theorem claim_C8_theorem (cat : CatalogSource) (sch : SchemaSource)
    (h : cat = .missing ∨ cat = .unreadable ∨ discover_all_app_ids_from_json cat = ∅ ∨
      sch = .missing ∨ sch = .badJson) :
    run_enters_main_loop cat sch = false := by
  unfold run_enters_main_loop
  rcases h with h | h | h | h | h
  · rw [h]
    rfl
  · rw [h]
    rfl
  · rw [if_pos h]
  · rw [h]
    split
    · rfl
    · rfl
  · rw [h]
    split
    · rfl
    · rfl

/-- Witness for C8 at a missing catalog and a perfectly good schema. -/
theorem claim_C8_witness :
    run_enters_main_loop CatalogSource.missing (SchemaSource.parsed true) = false :=
  claim_C8_theorem CatalogSource.missing (SchemaSource.parsed true) (Or.inl rfl)

/-! ## Claim C10 -/

/-- Claim C10 (code bug): the claim says `get_already_processed_ids` is total
on arbitrary ledger contents, every malformed line being skipped without
raising — and the code's own comment claims to catch "all possible errors".
But Python's `json` module parses the token `Infinity`, and
`int(float('inf'))` raises `OverflowError`, which is *not* in the caught
tuple `(json.JSONDecodeError, KeyError, ValueError, TypeError)`.  A ledger
file whose line is `{"app_id": Infinity}` therefore makes the scan raise
instead of skipping: the model returns the uncaught-exception marker, and
`Infinity` is indeed a value on which `int()` fails. -/
theorem claim_C10_theorem :
    get_already_processed_ids [some [LedgerLine.withAppId JVal.jinf]] = .error () ∧
    parseLine (LedgerLine.withAppId JVal.jinf) = .error PyErr.overflowErr ∧
    caughtByHandler PyErr.overflowErr = false := by
  refine ⟨?_, rfl, rfl⟩
  rfl

/-- Witness for C5: with three passing 200-status responses, well-formed
payloads and the block marker present in the store page, the attempt is
classified `HardBlocked`, by the marker disjunct of the theorem. -/
theorem claim_C5_witness :
    classifyAttempt (.ok 200 true false) (.ok 200 true false) (.ok 200 true true) true =
      AttemptClass.hardBlocked :=
  ((claim_C5_theorem (.ok 200 true false) (.ok 200 true false) (.ok 200 true true) true).1).mpr
    ⟨⟨by decide, by decide, by decide⟩,
      Or.inr (Or.inr (Or.inr ⟨⟨by decide, by decide, by decide⟩,
        ⟨by decide, by decide, by decide⟩, ⟨by decide, by decide, by decide⟩,
        rfl, rfl, rfl⟩))⟩

/-- Witness for C6: on a state whose valid batch reaches the threshold while
the invalid batch stays below it, `flush_batches_if_needed` writes and clears
only the valid side. -/
theorem claim_C6_witness :
    (flush_batches_if_needed exampleProcMixed).valid_data_batch = [] ∧
    (flush_batches_if_needed exampleProcMixed).output_file = some [1, 5, 6] ∧
    (flush_batches_if_needed exampleProcMixed).invalid_data_batch = [7] ∧
    (flush_batches_if_needed exampleProcMixed).invalid_output_file = none := by
  have h := claim_C6_theorem exampleProcMixed
  exact ⟨by rw [h.1]; decide, by rw [h.2.1]; decide,
    by rw [h.2.2.1]; decide, by rw [h.2.2.2.1]; decide⟩
